import Mathlib

/-!
Verification of the SceneManager reconciliation core against its
natural-language specification.

The definitions below are a shallow embedding of the Python sources:

* `src/duplicate_scenes.py` — normalization utilities, duplicate-pair
  detection (`find_duplicate_pairs`), quality resolution (`pick_duplicate`);
* `src/step3_compare.py`    — the catalog differ (`computeMissing`,
  `extract_stashdb_scene_ids`, `normalize_title`);
* `src/step4_whisparr.py`   — the acquisition matcher, cutoff filtering and
  the persisted MatchState ledger (`mark_scene`, `load_state`,
  `match_episode`, `processOne`/`processAll`, `runStep4`).

Embedding conventions:

* Python strings are Lean `String`s; `str.strip()` / `str.lower()` are
  modelled over the ASCII fragment (`pyStrip`, `pyLower`): the artifacts
  this pipeline exchanges are ASCII-keyed JSON documents.
* Python `dict` objects used as keyed stores are association lists with
  dict semantics (`assocSet` overwrites in place, `List.lookup` reads);
  Python `set`s appear as lists used only through membership.
* `datetime` values are modelled as integer seconds; calendar dates parse
  into an `SDate` and are ranked by `dateOrdinal` (days-from-civil), so a
  date's midnight-UTC timestamp is `dateOrdinal d * 86400`.
* Machine floats from `difflib.SequenceMatcher.ratio()` are modelled as
  exact rationals `2*M/T`; the autojunk heuristic of `difflib` only alters
  behaviour when the second sequence has at least 200 elements and is not
  modelled (all titles considered here are far shorter).
* Fallible reads of persisted artifacts are `Except String` values.
-/

/-! ### Python string primitives (ASCII fragment) -/

/-- Python `str` whitespace for `strip()` / `\s` (ASCII fragment). -/
def isPySpace (c : Char) : Bool :=
  c == ' ' || c == '\t' || c == '\n' || c == '\r' || c == '\x0b' || c == '\x0c'

/-- Python `\w` word characters (ASCII fragment: alphanumeric or underscore). -/
def isWordChar (c : Char) : Bool :=
  c.isAlphanum || c == '_'

/-- Drop leading characters satisfying `p`. -/
def dropLeading (p : Char → Bool) : List Char → List Char
  | [] => []
  | c :: cs => if p c then dropLeading p cs else c :: cs

theorem dropLeading_length_le (p : Char → Bool) (l : List Char) :
    (dropLeading p l).length ≤ l.length := by
  induction l with
  | nil => simp [dropLeading]
  | cons c cs ih =>
    simp only [dropLeading]
    split
    · exact Nat.le_trans ih (by simp)
    · simp

/-- Python `str.strip()` on a character list: drop leading and trailing whitespace. -/
def stripChars (cs : List Char) : List Char :=
  (dropLeading isPySpace ((dropLeading isPySpace cs.reverse).reverse))

/-- Python `str.strip()`. -/
def pyStrip (s : String) : String :=
  String.mk (stripChars s.toList)

/-- Python `str.lower()` (ASCII fragment). -/
def pyLower (s : String) : String :=
  String.mk (s.toList.map Char.toLower)

/-- Replace each maximal run of whitespace by a single space
(Python `re.sub(r"\s+", " ", s)`); the flag records whether the previous
character was part of a whitespace run. -/
def collapseAux : Bool → List Char → List Char
  | _, [] => []
  | inRun, c :: cs =>
    if isPySpace c then
      if inRun then collapseAux true cs else ' ' :: collapseAux true cs
    else c :: collapseAux false cs

def collapseWs (l : List Char) : List Char :=
  collapseAux false l

/-! ### NormalizationUtils (src/duplicate_scenes.py lines 23-63) -/

/-- `normalize_text` from `duplicate_scenes.py`: strip, lower, delete every
character that is neither a word character nor whitespace, collapse
whitespace runs to a single space, strip again.  Falsy input gives `""`. -/
def normalize_text (value : Option String) : String :=
  match value with
  | none => ""
  | some s =>
    if s = "" then ""
    else
      let lowered := (pyLower (pyStrip s)).toList
      let cleaned := lowered.filter (fun c => isWordChar c || isPySpace c)
      String.mk (stripChars (collapseWs cleaned))

/-- `extract_number_tokens`: the ordered maximal digit runs of a string
(`re.findall(r"\d+", value)`), kept as strings.  `run` accumulates the
current digit run in reverse. -/
def extractRunsAux : List Char → List Char → List String
  | run, [] => if run.isEmpty then [] else [String.mk run.reverse]
  | run, c :: cs =>
    if c.isDigit then extractRunsAux (c :: run) cs
    else if run.isEmpty then extractRunsAux [] cs
    else String.mk run.reverse :: extractRunsAux [] cs

def extract_number_tokens (value : String) : List String :=
  extractRunsAux [] value.toList

/-- `numbers_compatible`: both titles have no digit runs, or the digit-run
sequences are equal (as strings, in order). -/
def numbers_compatible (a b : String) : Bool :=
  let na := extract_number_tokens a
  let nb := extract_number_tokens b
  if na = [] && nb = [] then true else na == nb

/-! ### Calendar dates (`datetime.date.fromisoformat`) -/

/-- A parsed calendar date. -/
structure SDate where
  year : Nat
  month : Nat
  day : Nat
deriving DecidableEq, Repr

def isLeapYear (y : Nat) : Bool :=
  y % 4 == 0 && (y % 100 != 0 || y % 400 == 0)

def daysInMonth (y m : Nat) : Nat :=
  if m = 2 then (if isLeapYear y then 29 else 28)
  else if m = 4 || m = 6 || m = 9 || m = 11 then 30
  else 31

def mkValidDate (y m d : Nat) : Option SDate :=
  if 1 ≤ y ∧ y ≤ 9999 ∧ 1 ≤ m ∧ m ≤ 12 ∧ 1 ≤ d ∧ d ≤ daysInMonth y m then
    some ⟨y, m, d⟩
  else none

def digitVal (c : Char) : Nat := c.toNat - '0'.toNat

def natOfDigits (cs : List Char) : Nat :=
  cs.foldl (fun a c => a * 10 + digitVal c) 0

/-- `parse_date` / `parse_yyyy_mm_dd`: strict `YYYY-MM-DD` parse of the
stripped string; any failure (including falsy input) yields `none`, never an
error.  (Python 3.11 `date.fromisoformat` also accepts the dashless and
week-date ISO spellings; every date in this pipeline's artifacts is emitted
as `YYYY-MM-DD`, so only that form is modelled.) -/
def parse_yyyy_mm_dd (s : Option String) : Option SDate :=
  match s with
  | none => none
  | some str =>
    if str = "" then none
    else
      match (pyStrip str).toList with
      | [y1, y2, y3, y4, h1, m1, m2, h2, d1, d2] =>
        if h1 = '-' ∧ h2 = '-' ∧
            ([y1, y2, y3, y4, m1, m2, d1, d2].all Char.isDigit) then
          mkValidDate (natOfDigits [y1, y2, y3, y4]) (natOfDigits [m1, m2])
            (natOfDigits [d1, d2])
        else none
      | _ => none

/-- Alias used by `duplicate_scenes.py` (textually identical function). -/
def parse_date (s : Option String) : Option SDate := parse_yyyy_mm_dd s

/-- Day rank of a date (days-from-civil; rank 0 is 1970-01-01).  Only
differences of ranks are ever consumed. -/
def dateOrdinal (dte : SDate) : Int :=
  let y : Int := (dte.year : Int) - (if dte.month ≤ 2 then 1 else 0)
  let era : Int := y / 400
  let yoe : Int := y - era * 400
  let mp : Int := ((dte.month : Int) + 9) % 12
  let doy : Int := (153 * mp + 2) / 5 + (dte.day : Int) - 1
  let doe : Int := yoe * 365 + yoe / 4 - yoe / 100 + doy
  era * 146097 + doe - 719468

/-- `date_match`: wildcard-true when either side fails to parse, else the
absolute day difference is at most the 7-day window. -/
def date_match (a b : Option String) : Bool :=
  match parse_date a, parse_date b with
  | some da, some db => (dateOrdinal da - dateOrdinal db).natAbs ≤ 7
  | _, _ => true

/-! ### CatalogDiffer (src/step3_compare.py) -/

/-- `normalize_title` from `step3_compare.py`: `(t or "").strip().lower()`.
Note this is NOT the punctuation-stripping `normalize_text`. -/
def normalize_title (t : Option String) : String :=
  pyLower (pyStrip (t.getD ""))

/-- One element of a local scene's `stash_ids` list. -/
structure StashIdRef where
  endpoint : Option String
  stash_id : Option String
deriving DecidableEq, Repr

/-- A local (StashApp) scene as read from `01_stash_scenes.json`. -/
structure LocalScene where
  title : Option String
  date : Option String
  stash_ids : List StashIdRef
deriving DecidableEq, Repr

/-- A canonical (StashDB) scene from `02_stashdb_performer.json`.  The
`studio` sub-object is flattened to its `name`/`id` fields (`none` when the
object is absent or not a dict). -/
structure CanonScene where
  id : Option String
  title : Option String
  date : Option String
  studioName : Option String
  studioId : Option String
  code : Option String
deriving DecidableEq, Repr

/-- One entry of the `missingScenes` output of step 3. -/
structure MissingEntry where
  stashdbSceneId : Option String
  title : String
  date : Option String
  studio : Option String
  studioId : Option String
  code : Option String
deriving DecidableEq, Repr

/-- Python substring containment `pat in s` over character lists. -/
def hasSubstring (pat : List Char) : List Char → Bool
  | [] => pat.isEmpty
  | c :: rest => pat.isPrefixOf (c :: rest) || hasSubstring pat rest

/-- `extract_stashdb_scene_ids_from_stash`: every truthy `stash_id` whose
lowercased endpoint contains `"stashdb"` or `"stashdb.org"` as a substring.
The Python `set` is modelled as a list used only through membership. -/
def extract_stashdb_scene_ids (scenes : List LocalScene) : List String :=
  scenes.flatMap fun s =>
    s.stash_ids.filterMap fun r =>
      let ep := pyLower (r.endpoint.getD "")
      match r.stash_id with
      | some sid =>
        if sid ≠ "" ∧
            (hasSubstring "stashdb".toList ep.toList
              || hasSubstring "stashdb.org".toList ep.toList) = true then
          some sid
        else none
      | none => none

/-- The `(normalize_title(title), date or "")` key set built from the local
scenes (`stash_title_date` in the source). -/
def localTitleDateKeys (scenes : List LocalScene) : List (String × String) :=
  scenes.map fun s => (normalize_title s.title, s.date.getD "")

/-- The missing-entry record appended for a canonical scene that matched
neither key (`step3_compare.py` lines 132-140). -/
def mkMissingEntry (s : CanonScene) : MissingEntry :=
  let sid := s.id.getD ""
  let date := s.date.getD ""
  { stashdbSceneId := if sid = "" then none else some sid
    title := s.title.getD ""
    date := if date = "" then none else some date
    studio := s.studioName
    studioId := s.studioId
    code := s.code }

/-- The step-3 comparison loop (`step3_compare.py` lines 115-140): a
canonical scene is dropped when its id is linked from a local scene's
`stash_ids`, or when its `(normalized title, date)` key occurs locally;
otherwise a missing entry is emitted, preserving canonical order. -/
def computeMissing (locals : List LocalScene) (canon : List CanonScene) :
    List MissingEntry :=
  let linked := extract_stashdb_scene_ids locals
  let keys := localTitleDateKeys locals
  canon.filterMap fun s =>
    if s.id.getD "" ≠ "" ∧ s.id.getD "" ∈ linked then none
    else if (normalize_title (some (s.title.getD "")), s.date.getD "") ∈ keys
      then none
    else some (mkMissingEntry s)

/-! ### Title similarity (`difflib.SequenceMatcher(None, a, b).ratio()`) -/

/-- Ascending positions of `c` in `b` (difflib's `b2j` table for one key). -/
def b2jPos (b : List Char) (c : Char) : List Nat :=
  b.enum.filterMap fun p => if p.2 = c then some p.1 else none

def lookup0 (l : List (Nat × Nat)) (j : Nat) : Nat :=
  (l.lookup j).getD 0

/-- One row of `find_longest_match`'s dynamic program: extend the previous
row `j2len` over the (ascending, in-window) positions `js` of `a[i]` in `b`,
updating the best block `(besti, bestj, bestsize)`. -/
def flmRow (j2len : List (Nat × Nat)) (i : Nat) (js : List Nat)
    (best : Nat × Nat × Nat) : List (Nat × Nat) × (Nat × Nat × Nat) :=
  js.foldl
    (fun (st : List (Nat × Nat) × (Nat × Nat × Nat)) j =>
      let k := (if j = 0 then 0 else lookup0 j2len (j - 1)) + 1
      let best' := if k > st.2.2.2 then (i + 1 - k, j + 1 - k, k) else st.2
      ((j, k) :: st.1, best'))
    ([], best)

/-- `SequenceMatcher.find_longest_match` restricted to
`a[alo:ahi]` / `b[blo:bhi]`, junk-free case (see the file header note on
autojunk).  Returns `(besti, bestj, bestsize)`. -/
def find_longest_match (a b : List Char) (alo ahi blo bhi : Nat) :
    Nat × Nat × Nat :=
  let rows := (List.range ahi).drop alo
  (rows.foldl
    (fun (st : List (Nat × Nat) × (Nat × Nat × Nat)) i =>
      let js := (b2jPos b (a.getD i default)).filter
        (fun j => decide (blo ≤ j) && decide (j < bhi))
      flmRow st.1 i js st.2)
    ([], (alo, blo, 0))).2

/-- Total size of the matching blocks (`get_matching_blocks`, summed): the
stack recursion of difflib, run on explicit fuel; the fuel below always
suffices because each found block is nonempty and blocks are disjoint. -/
def matchTotalAux (a b : List Char) : Nat → List (Nat × Nat × Nat × Nat) → Nat
  | 0, _ => 0
  | _, [] => 0
  | fuel + 1, (alo, ahi, blo, bhi) :: rest =>
    let m := find_longest_match a b alo ahi blo bhi
    let i := m.1
    let j := m.2.1
    let k := m.2.2
    if k = 0 then matchTotalAux a b fuel rest
    else
      let q1 := if alo < i ∧ blo < j then [(alo, i, blo, j)] else []
      let q2 := if i + k < ahi ∧ j + k < bhi then [(i + k, ahi, j + k, bhi)] else []
      k + matchTotalAux a b fuel (q1 ++ q2 ++ rest)

def matchTotal (a b : List Char) : Nat :=
  matchTotalAux a b (2 * (a.length + b.length) + 4) [(0, a.length, 0, b.length)]

/-- `title_similarity`: 1 when both inputs are empty, 0 when exactly one is,
else `SequenceMatcher(None, a, b).ratio() = 2*M/T` as an exact rational. -/
def title_similarity (a b : String) : ℚ :=
  if a = "" ∧ b = "" then 1
  else if a = "" ∨ b = "" then 0
  else (2 * matchTotal a.toList b.toList : ℚ) / ((a.toList.length + b.toList.length : Nat) : ℚ)

/-! ### DuplicateDetector (src/duplicate_scenes.py lines 132-275) -/

/-- One element of a scene's `files` list (fields may be null/absent). -/
structure FileInfo where
  width : Option Int
  height : Option Int
  size : Option Int
deriving DecidableEq, Repr

/-- A local scene as consumed by the duplicate detector; `studio` is the
name field of the scene's studio object (`none` when either is absent). -/
structure Scene where
  id : String
  title : Option String
  date : Option String
  studio : Option String
  files : List FileInfo
deriving DecidableEq, Repr

/-- `get_scene_metrics`: running maxima of `width*height` and `size` over the
files, starting from the `(0, 0)` sentinel. -/
def get_scene_metrics (s : Scene) : Int × Int :=
  s.files.foldl
    (fun (best : Int × Int) f =>
      let res := f.width.getD 0 * f.height.getD 0
      let size := f.size.getD 0
      (if res > best.1 then res else best.1,
       if size > best.2 then size else best.2))
    (0, 0)

/-- A scene together with its normalized title and studio (the `normalized`
view built at the top of `find_duplicate_pairs`). -/
structure NormEntry where
  scene : Scene
  ntitle : String
  nstudio : String
deriving DecidableEq, Repr

def normEntry (s : Scene) : NormEntry :=
  ⟨s, normalize_text s.title, normalize_text s.studio⟩

/-- The four sequential gates of the inner comparison loop; surviving pairs
carry their similarity. -/
def pairGate (e o : NormEntry) : Option (Scene × Scene × ℚ) :=
  if e.nstudio ≠ o.nstudio then none
  else if ¬ numbers_compatible e.ntitle o.ntitle then none
  else if ¬ date_match e.scene.date o.scene.date then none
  else if title_similarity e.ntitle o.ntitle < 9 / 10 then none
  else some (e.scene, o.scene, title_similarity e.ntitle o.ntitle)

/-- The `for idx … for other in normalized[idx+1:]` double loop. -/
def pairsAux : List NormEntry → List (Scene × Scene × ℚ)
  | [] => []
  | e :: rest => rest.filterMap (pairGate e) ++ pairsAux rest

def find_duplicate_pairs (scenes : List Scene) : List (Scene × Scene × ℚ) :=
  pairsAux (scenes.map normEntry)

/-- Python string comparison `a < b` (lexicographic on code points). -/
def charListLt : List Char → List Char → Bool
  | [], [] => false
  | [], _ :: _ => true
  | _ :: _, [] => false
  | a :: as, b :: bs =>
    if a < b then true else if b < a then false else charListLt as bs

def pyStrLt (a b : String) : Bool :=
  charListLt a.toList b.toList

/-- `pick_duplicate`: strictly smaller max resolution loses; ties broken by
strictly smaller max file size, then by the lexicographically greater id
(`scene_a if str(a["id"]) > str(b["id"]) else scene_b`). -/
def pick_duplicate (a b : Scene) : Scene :=
  let ma := get_scene_metrics a
  let mb := get_scene_metrics b
  if ma.1 ≠ mb.1 then (if ma.1 < mb.1 then a else b)
  else if ma.2 ≠ mb.2 then (if ma.2 < mb.2 then a else b)
  else if pyStrLt b.id a.id then a else b

/-- The keep assignment of the report loop in `main`
(`keep = scene_b if duplicate["id"] == scene_a["id"] else scene_a`). -/
def keep_of (a b : Scene) : Scene :=
  if (pick_duplicate a b).id = a.id then b else a

/-! ### IncrementalStateStore and AcquisitionMatcher (src/step4_whisparr.py) -/

/-- Association-list write with Python-dict semantics: overwrite in place
when the key exists, else append. -/
def assocSet {κ α : Type} [BEq κ] [DecidableEq κ] (l : List (κ × α)) (k : κ)
    (v : α) : List (κ × α) :=
  if (l.lookup k).isSome then
    l.map (fun p => if p.1 = k then (k, v) else p)
  else l ++ [(k, v)]

/-- One `sceneHistory` ledger entry.  Timestamps are integer seconds. -/
structure HistEntry where
  lastTriedAtUtc : Int
  lastStatus : String
  attempts : Nat
deriving DecidableEq, Repr

/-- The persisted step-4 state (`04_whisparr_state.json`).  `lastRunAtUtc`
is `none` when the field is absent, empty or unparseable (those cases are
indistinguishable downstream). -/
structure S4State where
  lastRunAtUtc : Option Int
  runs : Nat
  sceneHistory : List (String × HistEntry)
deriving DecidableEq, Repr

def freshState : S4State := ⟨none, 0, []⟩

/-- `load_state`: a missing or corrupted state file yields a fresh state
("start fresh rather than explode"); a well-formed one is used verbatim. -/
def load_state : Except String S4State → S4State
  | .error _ => freshState
  | .ok s => s

/-- `mark_scene`: write the entry for `key` with the current timestamp, the
terminal status, and the previous attempt count (0 when absent) plus one. -/
def mark_scene (st : S4State) (key : String) (status : String) (now : Int) :
    S4State :=
  let attempts := ((st.sceneHistory.lookup key).map (·.attempts)).getD 0 + 1
  { st with sceneHistory :=
      assocSet st.sceneHistory key ⟨now, status, attempts⟩ }

/-- A Whisparr series as returned by `/api/v3/series` (`id` is `none` when
the field is absent, null, or not an integer). -/
structure SeriesObj where
  id : Option Int
  title : Option String
deriving DecidableEq, Repr

/-- A Whisparr episode as returned by `/api/v3/episode`. -/
structure EpisodeObj where
  id : Option Int
  title : Option String
  releaseDate : Option String
deriving DecidableEq, Repr

/-- One record of the `missingScenes` document consumed by step 4. -/
structure MissingRecord where
  stashdbSceneId : Option String
  title : Option String
  date : Option String
  studio : Option String
deriving DecidableEq, Repr

/-- One element of the step-4 `results` list.  Fields that a given status's
result dict omits are `none`. -/
structure ResultEntry where
  stashdbSceneId : String
  title : String
  date : Option String
  studio : String
  seriesId : Option Int
  episodeId : Option Int
  status : String
  commandId : Option Int
deriving DecidableEq, Repr

/-- The injected acquisition-system collaborator: the series list, the
episode list per series id, and the search-command submitter (returning the
response's `id` field when it is an integer). -/
structure Env where
  series : List SeriesObj
  fetchEps : Int → List EpisodeObj
  submit : Int → Option Int

/-- `safe_title`: `(s or "").strip()`. -/
def safe_title (s : Option String) : String :=
  pyStrip (s.getD "")

/-- `build_series_cache`: index the series by stripped, lowercased title,
skipping empty titles; a later series with the same key overwrites an
earlier one (dict assignment). -/
def build_series_cache (series : List SeriesObj) : List (String × SeriesObj) :=
  series.foldl
    (fun idx s =>
      if pyLower (pyStrip (s.title.getD "")) = "" then idx
      else assocSet idx (pyLower (pyStrip (s.title.getD ""))) s)
    []

/-- `d = parse_yyyy_mm_dd(date) if date else None` at the top of
`match_episode` (`if date` is false for both absent and empty strings). -/
def parseDateArg (date : Option String) : Option SDate :=
  match date with
  | some ds => if ds ≠ "" then parse_yyyy_mm_dd (some ds) else none
  | none => none

/-- `match_episode`: pass 1 (only with a parseable date) exact normalized
title AND exact release date; pass 2 exact normalized title; pass 3 (only
with a parseable date) exact release date, ignoring title.  Each pass
returns its first hit, mirroring the three sequential `return` loops. -/
def match_episode (episodes : List EpisodeObj) (title : String)
    (date : Option String) : Option EpisodeObj :=
  match (match parseDateArg date with
    | some dd =>
      episodes.find? fun (e : EpisodeObj) =>
        (pyLower (pyStrip (e.title.getD "")) == pyLower (pyStrip title)) &&
        (parse_yyyy_mm_dd e.releaseDate == some dd)
    | none => none) with
  | some e => some e
  | none =>
    match episodes.find? (fun (e : EpisodeObj) =>
        pyLower (pyStrip (e.title.getD "")) == pyLower (pyStrip title)) with
    | some e => some e
    | none =>
      match parseDateArg date with
      | some dd =>
        episodes.find? fun (e : EpisodeObj) =>
          parse_yyyy_mm_dd e.releaseDate == some dd
      | none => none

/-- The ledger key of a missing record: `str(s.get("stashdbSceneId") or "")`,
so an absent or null identifier keys the shared `""` entry. -/
def keyOf (r : MissingRecord) : String :=
  r.stashdbSceneId.getD ""

/-- The per-record body of the step-4 loop (`main`, lines 325-390): decide
the terminal status, append the result entry, and mark the ledger.  Returns
the result entry, the updated state, and the updated per-run episode
cache. -/
def processOne (env : Env) (dryRun : Bool) (now : Int)
    (seriesIdx : List (String × SeriesObj)) (st : S4State)
    (cache : List (Int × List EpisodeObj)) (r : MissingRecord) :
    ResultEntry × S4State × List (Int × List EpisodeObj) :=
  let title := safe_title r.title
  let date := r.date
  let studio := safe_title r.studio
  let sid := keyOf r
  if studio = "" then
    (⟨sid, title, date, studio, none, none, "skipped_no_studio", none⟩,
      mark_scene st sid "skipped_no_studio" now, cache)
  else
    match seriesIdx.lookup (pyLower studio) with
    | none =>
      (⟨sid, title, date, studio, none, none, "studio_missing_in_whisparr", none⟩,
        mark_scene st sid "studio_missing_in_whisparr" now, cache)
    | some sObj =>
      match sObj.id with
      | none =>
        (⟨sid, title, date, studio, none, none, "bad_series_id", none⟩,
          mark_scene st sid "bad_series_id" now, cache)
      | some seriesId =>
        let fetched :=
          match cache.lookup seriesId with
          | some eps => (eps, cache)
          | none =>
            let eps := env.fetchEps seriesId
            (eps, assocSet cache seriesId eps)
        let eps := fetched.1
        let cache' := fetched.2
        match match_episode eps title date with
        | none =>
          (⟨sid, title, date, studio, some seriesId, none, "episode_not_found", none⟩,
            mark_scene st sid "episode_not_found" now, cache')
        | some ep =>
          match ep.id with
          | none =>
            (⟨sid, title, date, studio, some seriesId, none, "bad_episode_id", none⟩,
              mark_scene st sid "bad_episode_id" now, cache')
          | some epId =>
            if dryRun then
              (⟨sid, title, date, studio, some seriesId, some epId,
                  "dry_run_would_queue_search", none⟩,
                mark_scene st sid "dry_run_would_queue_search" now, cache')
            else
              let cmd := env.submit epId
              (⟨sid, title, date, studio, some seriesId, some epId,
                  "queued_episode_search", cmd⟩,
                mark_scene st sid "queued_episode_search" now, cache')

/-- The step-4 loop over the selected records, threading state and the
episode cache and collecting results in order. -/
def processAll (env : Env) (dryRun : Bool) (now : Int)
    (seriesIdx : List (String × SeriesObj)) :
    S4State → List (Int × List EpisodeObj) → List MissingRecord →
    List ResultEntry × S4State × List (Int × List EpisodeObj)
  | st, cache, [] => ([], st, cache)
  | st, cache, r :: rs =>
    let step := processOne env dryRun now seriesIdx st cache r
    let rest := processAll env dryRun now seriesIdx step.2.1 step.2.2 rs
    (step.1 :: rest.1, rest.2)

/-- The cutoff (`main`, lines 262-269): absent when the full flag is set or
no prior `lastRunAt` exists, else `lastRunAt - lookbackDays` (in seconds). -/
def cutoffOf (lastRunAt : Option Int) (full : Bool) (lookbackDays : Int) :
    Option Int :=
  if full then none
  else lastRunAt.map fun t => t - lookbackDays * 86400

/-- The cutoff filter (`main`, lines 276-298): keep a record unless it has a
parseable date whose midnight-UTC timestamp is strictly before the cutoff;
records with no parseable date, or runs without a cutoff, are always
kept.  (The source also tallies two skip counters that do not affect the
filtered list; they are not modelled.) -/
def filterByCutoff (missing : List MissingRecord) (cutoff : Option Int)
    (full : Bool) : List MissingRecord :=
  missing.filter fun s =>
    if full then true
    else
      match cutoff with
      | none => true
      | some c =>
        match parse_yyyy_mm_dd s.date with
        | some d => decide (¬ dateOrdinal d * 86400 < c)
        | none => true

/-- Step 4 end to end (`main`): abort on an unreadable missing-records
document; recover a corrupt state file as fresh state; apply the cutoff
filter and the optional prefix limit (the seeded random sample is not
modelled — no claim concerns it); run the matcher loop; stamp
`lastRunAt`/`runs` unconditionally at the end. -/
def runStep4 (missingRead : Except String (List MissingRecord))
    (stateRead : Except String S4State) (env : Env) (full dryRun : Bool)
    (lookbackDays : Int) (limit : Option Nat) (now : Int) :
    Except String (List ResultEntry × S4State) :=
  match missingRead with
  | .error e => .error e
  | .ok missing =>
    let st := load_state stateRead
    let cutoff := cutoffOf st.lastRunAtUtc full lookbackDays
    let filtered := filterByCutoff missing cutoff full
    let selected :=
      match limit with
      | some n => filtered.take n
      | none => filtered
    let idx := build_series_cache env.series
    let out := processAll env dryRun now idx st [] selected
    .ok (out.1, { out.2.1 with lastRunAtUtc := some now, runs := out.2.1.runs + 1 })

/-! ### Verification-side definitions used by the theorems -/

/-- All index pairs `(i, j)` with `o ≤ i < j < o + m`, in lexicographic
order (the index set of the `for idx … for other in normalized[idx+1:]`
double loop over a window of length `m` at offset `o`). -/
def pairIndicesFrom (o : Nat) : Nat → List (Nat × Nat)
  | 0 => []
  | m + 1 =>
    ((List.range m).map fun j => (o, o + 1 + j)) ++ pairIndicesFrom (o + 1) m

def pairIndices (n : Nat) : List (Nat × Nat) :=
  pairIndicesFrom 0 n

/-- The candidate triple produced for one index pair. -/
def tripleAt (scenes : List Scene) (p : Nat × Nat) :
    Option (Scene × Scene × ℚ) :=
  match scenes.get? p.1, scenes.get? p.2 with
  | some a, some b => pairGate (normEntry a) (normEntry b)
  | _, _ => none

/-- Strict lexicographic order of index pairs. -/
def pairLexLt (p q : Nat × Nat) : Prop :=
  p.1 < q.1 ∨ (p.1 = q.1 ∧ p.2 < q.2)

/-- The run's episode cache is coherent with the collaborator: every cached
list is exactly what `fetchAcquisitionEpisodes` returns for that series. -/
def cacheOk (env : Env) (cache : List (Int × List EpisodeObj)) : Prop :=
  ∀ i eps, cache.lookup i = some eps → eps = env.fetchEps i

/-- The terminal status C3 predicts for a record: skipped when the studio is
blank, missing when the series index has no entry for the lowercased studio,
not-found when the three-pass episode match fails, and the dry-run/queued
pair otherwise. -/
def statusSpec (env : Env) (dryRun : Bool) (r : MissingRecord) : String :=
  if safe_title r.studio = "" then "skipped_no_studio"
  else
    match (build_series_cache env.series).lookup
        (pyLower (safe_title r.studio)) with
    | none => "studio_missing_in_whisparr"
    | some sObj =>
      match match_episode (env.fetchEps (sObj.id.getD 0))
          (safe_title r.title) r.date with
      | none => "episode_not_found"
      | some _ =>
        if dryRun then "dry_run_would_queue_search"
        else "queued_episode_search"

/-! ### Helper lemmas -/

theorem charListLt_asymm : ∀ {a b : List Char},
    charListLt a b = true → charListLt b a = false
  | [], [], h => by simp [charListLt] at h
  | [], _ :: _, _ => by simp [charListLt]
  | _ :: _, [], h => by simp [charListLt] at h
  | a :: as, b :: bs, h => by
    simp only [charListLt] at h ⊢
    rcases lt_trichotomy a b with hab | hab | hab
    · simp [hab, not_lt_of_lt hab]
    · subst hab
      simp only [lt_irrefl, if_false] at h ⊢
      exact charListLt_asymm h
    · simp [hab, not_lt_of_lt hab] at h

theorem charListLt_connex : ∀ {a b : List Char},
    a ≠ b → charListLt a b = true ∨ charListLt b a = true
  | [], [], h => absurd rfl h
  | [], _ :: _, _ => by simp [charListLt]
  | _ :: _, [], _ => by simp [charListLt]
  | a :: as, b :: bs, h => by
    simp only [charListLt]
    rcases lt_trichotomy a b with hab | hab | hab
    · simp [hab]
    · subst hab
      simp only [lt_irrefl, if_false]
      have : as ≠ bs := fun hh => h (by rw [hh])
      exact charListLt_connex this
    · simp [hab, not_lt_of_lt hab]

theorem pyStrLt_asymm {a b : String} (h : pyStrLt a b = true) :
    pyStrLt b a = false :=
  charListLt_asymm h

theorem pyStrLt_connex {a b : String} (h : a ≠ b) :
    pyStrLt a b = true ∨ pyStrLt b a = true := by
  apply charListLt_connex
  intro hl
  apply h
  cases a
  cases b
  exact congrArg String.mk hl

theorem pick_duplicate_eq (a b : Scene) :
    pick_duplicate a b =
      (if (get_scene_metrics a).1 < (get_scene_metrics b).1 then a
       else if (get_scene_metrics b).1 < (get_scene_metrics a).1 then b
       else if (get_scene_metrics a).2 < (get_scene_metrics b).2 then a
       else if (get_scene_metrics b).2 < (get_scene_metrics a).2 then b
       else if pyStrLt b.id a.id then a else b) := by
  unfold pick_duplicate
  rcases lt_trichotomy (get_scene_metrics a).1 (get_scene_metrics b).1 with h1 | h1 | h1
  · simp [ne_of_lt h1, h1]
  · simp only [h1, ne_eq, not_true_eq_false, if_false, lt_irrefl]
    rcases lt_trichotomy (get_scene_metrics a).2 (get_scene_metrics b).2 with h2 | h2 | h2
    · simp [ne_of_lt h2, h2]
    · simp only [h2, ne_eq, not_true_eq_false, if_false, lt_irrefl]
    · simp [(ne_of_gt h2), h2, not_lt_of_lt h2]
  · simp [(ne_of_gt h1), h1, not_lt_of_lt h1]

theorem pick_duplicate_mem (a b : Scene) :
    pick_duplicate a b = a ∨ pick_duplicate a b = b := by
  unfold pick_duplicate
  by_cases h1 : (get_scene_metrics a).1 ≠ (get_scene_metrics b).1
  · simp only [if_pos h1]
    split <;> simp
  · simp only [if_neg h1]
    by_cases h2 : (get_scene_metrics a).2 ≠ (get_scene_metrics b).2
    · simp only [if_pos h2]
      split <;> simp
    · simp only [if_neg h2]
      split <;> simp

/-! ### C5 -/

/-- C5: `pick_duplicate` is deterministic, total and order-independent: for
two records with distinct ids it designates the same duplicate in either
argument order — the record with strictly smaller max resolution, then
strictly smaller max file size, then the lexicographically greater id — and
the report loop's keep assignment picks the other record of the pair. -/
theorem pickDuplicate_orderIndependent (a b : Scene) (h : a.id ≠ b.id) :
    pick_duplicate a b = pick_duplicate b a ∧
    pick_duplicate a b =
      (if (get_scene_metrics a).1 < (get_scene_metrics b).1 then a
       else if (get_scene_metrics b).1 < (get_scene_metrics a).1 then b
       else if (get_scene_metrics a).2 < (get_scene_metrics b).2 then a
       else if (get_scene_metrics b).2 < (get_scene_metrics a).2 then b
       else if pyStrLt b.id a.id then a else b) ∧
    (pick_duplicate a b = a → keep_of a b = b) ∧
    (pick_duplicate a b = b → keep_of a b = a) ∧
    (pick_duplicate a b = a ∨ pick_duplicate a b = b) := by
  have hid : b.id ≠ a.id := fun hh => h hh.symm
  have hsymm : pick_duplicate a b = pick_duplicate b a := by
    rw [pick_duplicate_eq a b, pick_duplicate_eq b a]
    rcases lt_trichotomy (get_scene_metrics a).1 (get_scene_metrics b).1 with h1 | h1 | h1
    · simp [h1, not_lt_of_lt h1]
    · simp only [h1, lt_irrefl, if_false]
      rcases lt_trichotomy (get_scene_metrics a).2 (get_scene_metrics b).2 with h2 | h2 | h2
      · simp [h2, not_lt_of_lt h2]
      · simp only [h2, lt_irrefl, if_false]
        rcases pyStrLt_connex h with hs | hs
        · simp [hs, pyStrLt_asymm hs]
        · simp [hs, pyStrLt_asymm hs]
      · simp [h2, not_lt_of_lt h2]
    · simp [h1, not_lt_of_lt h1]
  refine ⟨hsymm, pick_duplicate_eq a b, ?_, ?_, pick_duplicate_mem a b⟩
  · intro hp
    unfold keep_of
    rw [hp]
    simp
  · intro hp
    unfold keep_of
    rw [hp]
    simp [hid]

/-- Witness for C5 at concrete records. -/
theorem pickDuplicate_orderIndependent_witness :
    let a : Scene := ⟨"1", some "Scene One", none, some "Acme",
      [⟨some 1920, some 1080, some 100⟩]⟩
    let b : Scene := ⟨"2", some "scene one!", none, some "Acme",
      [⟨some 1280, some 720, some 50⟩]⟩
    pick_duplicate a b = pick_duplicate b a ∧ pick_duplicate a b = b := by
  intro a b
  have h : a.id ≠ b.id := by decide
  have := pickDuplicate_orderIndependent a b h
  refine ⟨this.1, ?_⟩
  rw [this.2.1]
  decide

/-! ### C2 -/

/-- C2: with a prior `lastRunAt` and no full flag the cutoff is
`lastRunAt - lookbackDays`, and a missing record is excluded iff it has a
parseable date strictly earlier than the cutoff; undated records are always
kept; with the full flag or no prior `lastRunAt` every record is kept.
Concretely (lookback 30, lastRunAt 2024-02-01): a record dated 2024-01-01
is excluded, 2024-01-05 is included, and an undated one is included. -/
theorem cutoffFiltering_spec :
    (∀ (t L : Int), cutoffOf (some t) false L = some (t - L * 86400)) ∧
    (∀ (missing : List MissingRecord) (c : Int),
      filterByCutoff missing (some c) false
        = missing.filter fun s =>
            match parse_yyyy_mm_dd s.date with
            | some d => decide (¬ dateOrdinal d * 86400 < c)
            | none => true) ∧
    (∀ (missing : List MissingRecord) (c : Option Int),
      filterByCutoff missing c true = missing) ∧
    (∀ (missing : List MissingRecord) (full : Bool),
      filterByCutoff missing none full = missing) ∧
    (filterByCutoff
        [⟨some "a", none, some "2024-01-01", none⟩,
         ⟨some "b", none, some "2024-01-05", none⟩,
         ⟨some "c", none, none, none⟩]
        (cutoffOf (some (dateOrdinal ⟨2024, 2, 1⟩ * 86400)) false 30) false
      = [⟨some "b", none, some "2024-01-05", none⟩,
         ⟨some "c", none, none, none⟩]) := by
  refine ⟨fun t L => rfl, fun missing c => rfl, ?_, ?_, by decide⟩
  · intro missing c
    simp [filterByCutoff]
  · intro missing full
    cases full <;> simp [filterByCutoff]

/-! ### C1 -/

theorem extract_ids_ne_empty (locals : List LocalScene) :
    "" ∉ extract_stashdb_scene_ids locals := by
  intro hmem
  unfold extract_stashdb_scene_ids at hmem
  rw [List.mem_flatMap] at hmem
  obtain ⟨s, _, hs⟩ := hmem
  rw [List.mem_filterMap] at hs
  obtain ⟨r, _, hr⟩ := hs
  cases hid : r.stash_id with
  | none => rw [hid] at hr; simp at hr
  | some sid =>
    rw [hid] at hr
    simp only at hr
    split at hr
    · rename_i hcond
      cases hr
      exact hcond.1 rfl
    · cases hr

theorem normalize_title_getD (t : Option String) :
    normalize_title (some (t.getD "")) = normalize_title t := by
  cases t <;> rfl

/-- C1: a canonical record is excluded from the missing output iff its id is
among the locally linked external ids or its (normalized title, date-or-"")
key occurs among the local records' keys; all other canonical records are
emitted, in order.  In particular a linked record never appears in the
missing output even when title/date differ, and a (title, date)-matching
record never appears even with no link. -/
theorem catalogDiffer_missing_iff (locals : List LocalScene)
    (canon : List CanonScene) :
    computeMissing locals canon
      = (canon.filter fun s =>
          !(decide (s.id.getD "" ∈ extract_stashdb_scene_ids locals) ||
            decide ((normalize_title s.title, s.date.getD "")
              ∈ localTitleDateKeys locals))).map mkMissingEntry ∧
    (∀ s ∈ canon, s.id.getD "" ∈ extract_stashdb_scene_ids locals →
      s ∉ canon.filter fun s =>
        !(decide (s.id.getD "" ∈ extract_stashdb_scene_ids locals) ||
          decide ((normalize_title s.title, s.date.getD "")
            ∈ localTitleDateKeys locals))) ∧
    (∀ s ∈ canon,
      (normalize_title s.title, s.date.getD "") ∈ localTitleDateKeys locals →
      s ∉ canon.filter fun s =>
        !(decide (s.id.getD "" ∈ extract_stashdb_scene_ids locals) ||
          decide ((normalize_title s.title, s.date.getD "")
            ∈ localTitleDateKeys locals))) := by
  refine ⟨?_, ?_, ?_⟩
  · induction canon with
    | nil => rfl
    | cons s rest ih =>
      simp only [computeMissing] at ih ⊢
      rw [List.filterMap_cons, List.filter_cons]
      by_cases hA : s.id.getD "" ∈ extract_stashdb_scene_ids locals
      · have hne : s.id.getD "" ≠ "" := by
          intro hempty
          rw [hempty] at hA
          exact extract_ids_ne_empty locals hA
        rw [if_pos ⟨hne, hA⟩]
        simpa [hA] using ih
      · rw [if_neg (fun hc => hA hc.2)]
        by_cases hB : (normalize_title s.title, s.date.getD "")
            ∈ localTitleDateKeys locals
        · rw [if_pos (by rw [normalize_title_getD]; exact hB)]
          simpa [hA, hB] using ih
        · rw [if_neg (by rw [normalize_title_getD]; exact hB)]
          simp only [List.map_cons]
          have hp : (!(decide (s.id.getD "" ∈ extract_stashdb_scene_ids locals) ||
              decide ((normalize_title s.title, s.date.getD "")
                ∈ localTitleDateKeys locals))) = true := by
            simp [hA, hB]
          rw [hp, if_pos rfl, List.map_cons, ih]
  · intro s _ hlink hmem
    rw [List.mem_filter] at hmem
    simp [hlink] at hmem
  · intro s _ hkey hmem
    rw [List.mem_filter] at hmem
    simp [hkey] at hmem

/-- Witness for C1 at a concrete catalog pair: a linked canonical record
with differing title/date, and a (title, date)-matching one with no link,
are both excluded. -/
theorem catalogDiffer_missing_iff_witness :
    let locals : List LocalScene :=
      [⟨some "Foo", some "2024-05-01",
        [⟨some "https://stashdb.org/graphql", some "abc"⟩]⟩]
    let cA : CanonScene := ⟨some "abc", some "Different", some "2020-01-01",
      none, none, none⟩
    let cB : CanonScene := ⟨some "xyz", some " FOO ", some "2024-05-01",
      none, none, none⟩
    cA ∉ ([cA, cB].filter fun s =>
        !(decide (s.id.getD "" ∈ extract_stashdb_scene_ids locals) ||
          decide ((normalize_title s.title, s.date.getD "")
            ∈ localTitleDateKeys locals))) ∧
    cB ∉ ([cA, cB].filter fun s =>
        !(decide (s.id.getD "" ∈ extract_stashdb_scene_ids locals) ||
          decide ((normalize_title s.title, s.date.getD "")
            ∈ localTitleDateKeys locals))) := by
  intro locals cA cB
  have h := catalogDiffer_missing_iff locals [cA, cB]
  exact ⟨h.2.1 cA (by simp) (by decide), h.2.2 cB (by simp) (by decide)⟩

/-! ### C7 -/

theorem mkMissingEntry_date_getD (s : CanonScene) :
    (mkMissingEntry s).date.getD "" = s.date.getD "" := by
  unfold mkMissingEntry
  by_cases h : s.date.getD "" = "" <;> simp [h]

/-- C7 counterexample: the step-3 title key is NOT the §4.1 `normalizeText`.
The canonical title `"Foo!"` differs from the local `"Foo"` only in
punctuation (they agree under `normalize_text`), the date strings are equal,
yet the canonical record IS emitted as missing. -/
theorem step3TitleKey_counterexample :
    normalize_text (some "Foo!") = normalize_text (some "Foo") ∧
    computeMissing [⟨some "Foo", some "2024-05-01", []⟩]
        [⟨some "e1", some "Foo!", some "2024-05-01", none, none, none⟩]
      = [mkMissingEntry ⟨some "e1", some "Foo!", some "2024-05-01",
          none, none, none⟩] := by
  exact ⟨by decide, by decide⟩

/-- C7 amended: the title component of the step-3 key is
`(title or "").strip().lower()` (`normalize_title`), not the
punctuation-stripping `normalizeText` of §4.1.  Hence a canonical record
whose `(strip+lower title, date)` key matches a local record is never
emitted as missing — titles differing only in casing or outer whitespace
with equal date strings are unified, punctuation differences are not. -/
theorem step3TitleKey_amended (locals : List LocalScene)
    (canon : List CanonScene) :
    (∀ t : Option String, normalize_title t = pyLower (pyStrip (t.getD ""))) ∧
    (∀ m ∈ computeMissing locals canon,
      (normalize_title (some m.title), m.date.getD "")
        ∉ localTitleDateKeys locals) := by
  refine ⟨fun t => rfl, ?_⟩
  intro m hm
  unfold computeMissing at hm
  rw [List.mem_filterMap] at hm
  obtain ⟨s, _, hs⟩ := hm
  split at hs
  · cases hs
  · split at hs
    · cases hs
    · rename_i hB
      cases hs
      intro hk
      apply hB
      have htitle : (mkMissingEntry s).title = s.title.getD "" := rfl
      rw [htitle, mkMissingEntry_date_getD] at hk
      exact hk

/-- Witness for C7's amended statement: with equal dates, a canonical title
differing from the local one only by casing and outer whitespace never
appears in the missing output. -/
theorem step3TitleKey_amended_witness :
    (∀ m ∈ computeMissing [⟨some "Foo Bar", some "2024-05-01", []⟩]
        [⟨some "e1", some "  foo bar", some "2024-05-01", none, none, none⟩,
         ⟨some "e2", some "Else", some "2024-05-01", none, none, none⟩],
      (normalize_title (some m.title), m.date.getD "")
        ∉ localTitleDateKeys [⟨some "Foo Bar", some "2024-05-01", []⟩]) ∧
    computeMissing [⟨some "Foo Bar", some "2024-05-01", []⟩]
        [⟨some "e1", some "  foo bar", some "2024-05-01", none, none, none⟩,
         ⟨some "e2", some "Else", some "2024-05-01", none, none, none⟩]
      = [mkMissingEntry ⟨some "e2", some "Else", some "2024-05-01",
          none, none, none⟩] :=
  ⟨(step3TitleKey_amended
      [⟨some "Foo Bar", some "2024-05-01", []⟩]
      [⟨some "e1", some "  foo bar", some "2024-05-01", none, none, none⟩,
       ⟨some "e2", some "Else", some "2024-05-01", none, none, none⟩]).2,
   by decide⟩

/-! ### Ledger lemmas (C4, C10) -/

theorem lookup_map_set {κ α : Type} [DecidableEq κ] [BEq κ] [LawfulBEq κ]
    (l : List (κ × α)) (k : κ) (v : α) (k' : κ) :
    (l.map fun p => if p.1 = k then (k, v) else p).lookup k'
      = if k' = k then (l.lookup k).map (fun _ => v) else l.lookup k' := by
  induction l with
  | nil => simp
  | cons p ps ih =>
    obtain ⟨pk, pv⟩ := p
    by_cases hpk : pk = k
    · subst hpk
      simp only [List.map_cons, eq_self_iff_true, if_true, List.lookup_cons]
      by_cases hk' : k' = pk
      · have hb : (k' == pk) = true := beq_iff_eq.mpr hk'
        rw [hb]
        simp [hk']
      · have hb : (k' == pk) = false := beq_false_of_ne hk'
        rw [hb]
        simpa [hk'] using ih
    · simp only [List.map_cons, if_neg hpk, List.lookup_cons]
      have hb2 : (k == pk) = false := beq_false_of_ne (fun h => hpk h.symm)
      by_cases hk' : k' = pk
      · have hb : (k' == pk) = true := beq_iff_eq.mpr hk'
        have hkk : ¬ k' = k := fun h => hpk (hk' ▸ h)
        rw [hb, hb2]
        simp [hkk]
      · have hb : (k' == pk) = false := beq_false_of_ne hk'
        rw [hb, hb2]
        simpa using ih

theorem lookup_assocSet {κ α : Type} [DecidableEq κ] [BEq κ] [LawfulBEq κ]
    (l : List (κ × α)) (k k' : κ) (v : α) :
    (assocSet l k v).lookup k' = if k' = k then some v else l.lookup k' := by
  unfold assocSet
  split
  · rename_i hsome
    rw [lookup_map_set]
    by_cases hk : k' = k
    · subst hk
      obtain ⟨w, hw⟩ := Option.isSome_iff_exists.mp hsome
      rw [hw]
      simp
    · simp [hk]
  · rename_i hnone
    rw [List.lookup_append]
    by_cases hk : k' = k
    · subst hk
      have h0 : l.lookup k' = none := Option.not_isSome_iff_eq_none.mp hnone
      simp [h0, List.lookup_cons]
    · have hb : (k' == k) = false := beq_false_of_ne hk
      simp [hk, List.lookup_cons, hb]

theorem mark_scene_lookup_self (st : S4State) (key status : String) (now : Int) :
    (mark_scene st key status now).sceneHistory.lookup key
      = some ⟨now, status,
          ((st.sceneHistory.lookup key).map (·.attempts)).getD 0 + 1⟩ := by
  unfold mark_scene
  simp [lookup_assocSet]

theorem mark_scene_lookup_other (st : S4State) (key status : String)
    (now : Int) (k : String) (h : k ≠ key) :
    (mark_scene st key status now).sceneHistory.lookup k
      = st.sceneHistory.lookup k := by
  unfold mark_scene
  simp [lookup_assocSet, h]

/-- Every branch of the per-record loop body writes the ledger through
`mark_scene`, under the record's key, with the same status it reports. -/
theorem processOne_state (env : Env) (dryRun : Bool) (now : Int)
    (idx : List (String × SeriesObj)) (st : S4State)
    (cache : List (Int × List EpisodeObj)) (r : MissingRecord) :
    (processOne env dryRun now idx st cache r).2.1
      = mark_scene st (keyOf r)
          (processOne env dryRun now idx st cache r).1.status now := by
  unfold processOne
  dsimp only
  repeat' split
  all_goals rfl

theorem processOne_preserves_isSome (env : Env) (dryRun : Bool) (now : Int)
    (idx : List (String × SeriesObj)) (st : S4State)
    (cache : List (Int × List EpisodeObj)) (r : MissingRecord) (k : String)
    (h : (st.sceneHistory.lookup k).isSome) :
    ((processOne env dryRun now idx st cache r).2.1.sceneHistory.lookup k).isSome := by
  rw [processOne_state]
  by_cases hk : k = keyOf r
  · subst hk
    rw [mark_scene_lookup_self]
    rfl
  · rw [mark_scene_lookup_other _ _ _ _ _ hk]
    exact h

theorem processAll_preserves_isSome (env : Env) (dryRun : Bool) (now : Int)
    (idx : List (String × SeriesObj)) :
    ∀ (records : List MissingRecord) (st : S4State)
      (cache : List (Int × List EpisodeObj)) (k : String),
      (st.sceneHistory.lookup k).isSome →
      ((processAll env dryRun now idx st cache records).2.1.sceneHistory.lookup
        k).isSome := by
  intro records
  induction records with
  | nil => intro st cache k h; exact h
  | cons r rs ih =>
    intro st cache k h
    simp only [processAll]
    exact ih _ _ k (processOne_preserves_isSome env dryRun now idx st cache r k h)

/-! ### C4 -/

/-- C4: every terminal status writes the record's MatchState entry with the
fresh attempt timestamp, that status, and the attempt counter incremented by
exactly one; marking never touches any other key; and across a whole run no
existing `sceneHistory` entry is ever deleted. -/
theorem matchStateLedger_invariant (env : Env) (dryRun : Bool) (now : Int)
    (idx : List (String × SeriesObj)) (st : S4State)
    (cache : List (Int × List EpisodeObj)) (r : MissingRecord) :
    ((processOne env dryRun now idx st cache r).2.1.sceneHistory.lookup (keyOf r)
      = some ⟨now, (processOne env dryRun now idx st cache r).1.status,
          ((st.sceneHistory.lookup (keyOf r)).map (·.attempts)).getD 0 + 1⟩) ∧
    (∀ k, k ≠ keyOf r →
      (processOne env dryRun now idx st cache r).2.1.sceneHistory.lookup k
        = st.sceneHistory.lookup k) ∧
    (∀ (records : List MissingRecord) (k : String),
      (st.sceneHistory.lookup k).isSome →
      ((processAll env dryRun now idx st cache records).2.1.sceneHistory.lookup
        k).isSome) := by
  refine ⟨?_, ?_, ?_⟩
  · rw [processOne_state, mark_scene_lookup_self]
  · intro k hk
    rw [processOne_state, mark_scene_lookup_other _ _ _ _ _ hk]
  · intro records k h
    exact processAll_preserves_isSome env dryRun now idx records st cache k h

/-- Witness for C4: a concrete record with no studio, marked over a state
holding one prior entry. -/
theorem matchStateLedger_invariant_witness :
    let env : Env := ⟨[], fun _ => [], fun _ => none⟩
    let st : S4State := ⟨none, 0, [("old", ⟨5, "episode_not_found", 2⟩)]⟩
    let r : MissingRecord := ⟨some "q", some "T", none, none⟩
    ((processOne env false 9 [] st [] r).2.1.sceneHistory.lookup "q"
      = some ⟨9, "skipped_no_studio", 1⟩) ∧
    ((processOne env false 9 [] st [] r).2.1.sceneHistory.lookup "old"
      = some ⟨5, "episode_not_found", 2⟩) ∧
    ((processAll env false 9 [] st [] [r]).2.1.sceneHistory.lookup "old").isSome := by
  intro env st r
  have h := matchStateLedger_invariant env false 9 [] st [] r
  refine ⟨?_, ?_, h.2.2 [r] "old" (by decide)⟩
  · have h1 := h.1
    rw [show (processOne env false 9 [] st [] r).1.status = "skipped_no_studio"
      from by decide] at h1
    exact h1.trans (by decide)
  · exact (h.2.1 "old" (by decide)).trans (by decide)

/-! ### C10 -/

theorem processOne_attempts (env : Env) (dryRun : Bool) (now : Int)
    (idx : List (String × SeriesObj)) (st : S4State)
    (cache : List (Int × List EpisodeObj)) (r : MissingRecord) :
    (((processOne env dryRun now idx st cache r).2.1.sceneHistory.lookup
        (keyOf r)).map (·.attempts)).getD 0
      = ((st.sceneHistory.lookup (keyOf r)).map (·.attempts)).getD 0 + 1 := by
  rw [processOne_state, mark_scene_lookup_self]
  rfl

/-- C10: missing records with an absent (or null) external identifier are
all keyed under `""` in the ledger, and a run over such records accumulates
all their attempts in that single shared entry. -/
theorem missingNoId_sharedKey (env : Env) (dryRun : Bool) (now : Int)
    (idx : List (String × SeriesObj)) :
    (∀ r : MissingRecord, r.stashdbSceneId = none → keyOf r = "") ∧
    (∀ (records : List MissingRecord) (st : S4State)
      (cache : List (Int × List EpisodeObj)),
      (∀ r ∈ records, keyOf r = "") →
      (((processAll env dryRun now idx st cache records).2.1.sceneHistory.lookup
          "").map (·.attempts)).getD 0
        = ((st.sceneHistory.lookup "").map (·.attempts)).getD 0
            + records.length) := by
  refine ⟨?_, ?_⟩
  · intro r h
    unfold keyOf
    rw [h]
    rfl
  · intro records
    induction records with
    | nil => intro st cache _; simp [processAll]
    | cons r rs ih =>
      intro st cache hall
      have hr : keyOf r = "" := hall r (List.mem_cons_self r rs)
      simp only [processAll]
      rw [ih _ _ (fun x hx => hall x (List.mem_cons_of_mem r hx))]
      have := processOne_attempts env dryRun now idx st cache r
      rw [hr] at this
      rw [this]
      simp only [List.length_cons]
      omega

/-- Witness for C10: two identifier-less records share the `""` entry, whose
attempt count reaches 2. -/
theorem missingNoId_sharedKey_witness :
    let env : Env := ⟨[], fun _ => [], fun _ => none⟩
    let r1 : MissingRecord := ⟨none, some "A", none, none⟩
    let r2 : MissingRecord := ⟨none, some "B", none, some "NoSuchStudio"⟩
    keyOf r1 = "" ∧
    (((processAll env false 9 [] freshState [] [r1, r2]).2.1.sceneHistory.lookup
        "").map (·.attempts)).getD 0 = 2 := by
  intro env r1 r2
  have h := missingNoId_sharedKey env false 9 []
  refine ⟨h.1 r1 rfl, ?_⟩
  rw [h.2 [r1, r2] freshState [] (by decide)]
  decide

/-! ### C6 -/

theorem pairGate_some {e o : NormEntry} {a b : Scene} {sim : ℚ}
    (h : pairGate e o = some (a, b, sim)) :
    e.scene = a ∧ o.scene = b ∧ e.nstudio = o.nstudio ∧
    numbers_compatible e.ntitle o.ntitle = true ∧
    date_match e.scene.date o.scene.date = true ∧
    sim = title_similarity e.ntitle o.ntitle ∧ 9 / 10 ≤ sim := by
  unfold pairGate at h
  split at h
  · cases h
  · split at h
    · cases h
    · split at h
      · cases h
      · split at h
        · cases h
        · rename_i h1 h2 h3 h4
          injection h with h5
          obtain ⟨ha, hrest⟩ := Prod.mk.inj h5
          obtain ⟨hb, hsim⟩ := Prod.mk.inj hrest
          refine ⟨ha, hb, not_ne_iff.mp h1, not_not.mp h2, not_not.mp h3,
            hsim.symm, ?_⟩
          rw [← hsim]
          exact not_lt.mp h4

theorem mem_pairsAux {l : List NormEntry} {t : Scene × Scene × ℚ}
    (h : t ∈ pairsAux l) :
    ∃ e o, e ∈ l ∧ o ∈ l ∧ pairGate e o = some t := by
  induction l with
  | nil => cases h
  | cons e rest ih =>
    rw [pairsAux, List.mem_append] at h
    rcases h with h | h
    · rw [List.mem_filterMap] at h
      obtain ⟨o, ho, hgate⟩ := h
      exact ⟨e, o, List.mem_cons_self _ _, List.mem_cons_of_mem _ ho, hgate⟩
    · obtain ⟨e', o', he, ho, hg⟩ := ih h
      exact ⟨e', o', List.mem_cons_of_mem _ he, List.mem_cons_of_mem _ ho, hg⟩

theorem mem_map_normEntry {scenes : List Scene} {e : NormEntry}
    (h : e ∈ scenes.map normEntry) :
    e.ntitle = normalize_text e.scene.title ∧
    e.nstudio = normalize_text e.scene.studio := by
  rw [List.mem_map] at h
  obtain ⟨s, _, rfl⟩ := h
  exact ⟨rfl, rfl⟩

/-- C6: every triple output by the duplicate detector passes all four gates:
equal normalized studios, numbers-compatible normalized titles, dates within
the window (unparseable dates wildcard), and a similarity that equals the
title-similarity of the normalized titles and is at least 9/10. -/
theorem duplicatePairs_gates (scenes : List Scene) :
    ∀ a b sim, (a, b, sim) ∈ find_duplicate_pairs scenes →
      normalize_text a.studio = normalize_text b.studio ∧
      numbers_compatible (normalize_text a.title) (normalize_text b.title)
        = true ∧
      date_match a.date b.date = true ∧
      sim = title_similarity (normalize_text a.title) (normalize_text b.title) ∧
      9 / 10 ≤ sim := by
  intro a b sim h
  unfold find_duplicate_pairs at h
  obtain ⟨e, o, he, ho, hg⟩ := mem_pairsAux h
  obtain ⟨ha, hb, hstudio, hnum, hdate, hsim, hge⟩ := pairGate_some hg
  obtain ⟨het, hes⟩ := mem_map_normEntry he
  obtain ⟨hot, hos⟩ := mem_map_normEntry ho
  subst ha hb
  rw [het, hot] at hnum hsim
  rw [hes, hos] at hstudio
  exact ⟨hstudio, hnum, hdate, hsim, hge⟩

/-- Witness for C6 at a concrete scene list. -/
theorem duplicatePairs_gates_witness :
    let s1 : Scene := ⟨"1", some "Scene One", some "2024-01-01", some "Acme",
      [⟨some 1920, some 1080, some 100⟩]⟩
    let s2 : Scene := ⟨"2", some "scene one!", some "2024-01-03", some "Acme",
      []⟩
    normalize_text s1.studio = normalize_text s2.studio ∧
    numbers_compatible (normalize_text s1.title) (normalize_text s2.title)
      = true ∧
    date_match s1.date s2.date = true ∧
    (1 : ℚ) = title_similarity (normalize_text s1.title)
      (normalize_text s2.title) ∧
    9 / 10 ≤ (1 : ℚ) := by
  intro s1 s2
  have hm : matchTotal "scene one".toList "scene one".toList = 9 := by decide
  have hlen : ("scene one".toList.length) = 9 := by decide
  have hts : title_similarity "scene one" "scene one" = 1 := by
    unfold title_similarity
    rw [if_neg (by decide), if_neg (by decide), hm, hlen]
    norm_num
  have hg : pairGate (normEntry s1) (normEntry s2) = some (s1, s2, 1) := by
    unfold pairGate
    rw [if_neg (by decide), if_neg (by decide), if_neg (by decide)]
    have he1 : (normEntry s1).ntitle = "scene one" := by decide
    have he2 : (normEntry s2).ntitle = "scene one" := by decide
    rw [he1, he2, hts, if_neg (by norm_num)]
    rfl
  have hmem : (s1, s2, (1 : ℚ)) ∈ find_duplicate_pairs [s1, s2] := by
    unfold find_duplicate_pairs
    simp only [List.map_cons, List.map_nil, pairsAux, List.filterMap_cons,
      List.filterMap_nil, hg]
    simp
  exact duplicatePairs_gates [s1, s2] s1 s2 1 hmem

/-! ### C9 -/

theorem filterMap_range_get {α β : Type} (l : List α) (g : α → Option β) :
    (List.range l.length).filterMap (fun j => (l.get? j).bind g)
      = l.filterMap g := by
  induction l with
  | nil => rfl
  | cons x xs ih =>
    rw [List.length_cons, List.range_succ_eq_map, List.filterMap_cons,
      List.filterMap_map]
    have hhead : ((x :: xs).get? 0).bind g = g x := rfl
    have htail :
        (List.range xs.length).filterMap
          ((fun j => ((x :: xs).get? j).bind g) ∘ (· + 1))
          = xs.filterMap g := by
      have hfun : ∀ j, ((fun j => ((x :: xs).get? j).bind g) ∘ (· + 1)) j
          = (fun j => (xs.get? j).bind g) j := fun j => rfl
      rw [List.filterMap_congr (fun j _ => hfun j)]
      exact ih
    rw [hhead, htail, List.filterMap_cons]

theorem pairIndicesFrom_shift : ∀ (m o : Nat),
    pairIndicesFrom (o + 1) m
      = (pairIndicesFrom o m).map (fun p => (p.1 + 1, p.2 + 1)) := by
  intro m
  induction m with
  | zero => intro o; rfl
  | succ m ih =>
    intro o
    rw [pairIndicesFrom, pairIndicesFrom, List.map_append, ih (o + 1),
      List.map_map]
    congr 1
    apply List.map_congr_left
    intro j _
    simp only [Function.comp_apply]
    congr 1
    omega

theorem tripleAt_shift (s : Scene) (rest : List Scene) (p : Nat × Nat) :
    tripleAt (s :: rest) (p.1 + 1, p.2 + 1) = tripleAt rest p := rfl

theorem fdp_eq_pairIndices : ∀ (scenes : List Scene),
    find_duplicate_pairs scenes
      = (pairIndices scenes.length).filterMap (tripleAt scenes) := by
  intro scenes
  induction scenes with
  | nil => rfl
  | cons s rest ih =>
    show pairsAux (normEntry s :: rest.map normEntry) = _
    rw [pairsAux]
    unfold pairIndices
    rw [List.length_cons, pairIndicesFrom, List.filterMap_append,
      pairIndicesFrom_shift]
    congr 1
    · rw [List.filterMap_map, List.filterMap_map]
      have hfun : ∀ j, ((tripleAt (s :: rest)) ∘ fun j => (0, 0 + 1 + j)) j
          = (fun j => (rest.get? j).bind
              fun y => pairGate (normEntry s) (normEntry y)) j := by
        intro j
        simp only [Function.comp_apply]
        have harg : ((0 : Nat), 0 + 1 + j) = ((0 : Nat), j + 1) := by
          congr 1
          omega
        rw [harg]
        show (match (some s : Option Scene), rest.get? j with
          | some a, some b => pairGate (normEntry a) (normEntry b)
          | _, _ => none) = _
        cases rest.get? j <;> rfl
      rw [List.filterMap_congr (fun j _ => hfun j), Function.comp_def]
      exact (filterMap_range_get rest
        (fun r => pairGate (normEntry s) (normEntry r))).symm
    · rw [List.filterMap_map]
      have hfun : ∀ p, ((tripleAt (s :: rest)) ∘ fun p => (p.1 + 1, p.2 + 1)) p
          = tripleAt rest p := fun p => rfl
      rw [List.filterMap_congr (fun p _ => hfun p)]
      exact ih

theorem pairIndicesFrom_bounds : ∀ (m o : Nat) (p : Nat × Nat),
    p ∈ pairIndicesFrom o m → o ≤ p.1 ∧ p.1 < p.2 ∧ p.2 < o + m := by
  intro m
  induction m with
  | zero => intro o p h; cases h
  | succ m ih =>
    intro o p h
    rw [pairIndicesFrom, List.mem_append] at h
    rcases h with h | h
    · rw [List.mem_map] at h
      obtain ⟨j, hj, rfl⟩ := h
      rw [List.mem_range] at hj
      exact ⟨le_refl o, by omega, by omega⟩
    · obtain ⟨h1, h2, h3⟩ := ih (o + 1) p h
      exact ⟨by omega, h2, by omega⟩

theorem pairIndicesFrom_pairwise : ∀ (m o : Nat),
    (pairIndicesFrom o m).Pairwise pairLexLt := by
  intro m
  induction m with
  | zero => intro o; exact List.Pairwise.nil
  | succ m ih =>
    intro o
    rw [pairIndicesFrom, List.pairwise_append]
    refine ⟨?_, ih (o + 1), ?_⟩
    · rw [List.pairwise_map]
      apply List.Pairwise.imp ?_ (List.pairwise_lt_range m)
      intro a b hab
      right
      exact ⟨rfl, by omega⟩
    · intro p hp q hq
      rw [List.mem_map] at hp
      obtain ⟨j, _, rfl⟩ := hp
      have hb := pairIndicesFrom_bounds m (o + 1) q hq
      left
      simpa using by omega

/-- C9: `find_duplicate_pairs` is exactly the in-order filter of the
lexicographically ordered index pairs `i < j` of the input: no record is
ever compared with itself, and each unordered pair of positions yields at
most one output triple. -/
theorem fdp_index_structure (scenes : List Scene) :
    find_duplicate_pairs scenes
      = (pairIndices scenes.length).filterMap (tripleAt scenes) ∧
    (∀ p ∈ pairIndices scenes.length, p.1 < p.2 ∧ p.2 < scenes.length) ∧
    (pairIndices scenes.length).Pairwise pairLexLt := by
  refine ⟨fdp_eq_pairIndices scenes, ?_, pairIndicesFrom_pairwise _ 0⟩
  intro p hp
  have h := pairIndicesFrom_bounds scenes.length 0 p hp
  exact ⟨h.2.1, by omega⟩

/-- Witness for C9 at a two-record list. -/
theorem fdp_index_structure_witness :
    (0, 1).1 < (0, 1).2 ∧
    (0, 1).2 < ([⟨"1", none, none, none, []⟩,
      ⟨"2", none, none, none, []⟩] : List Scene).length :=
  (fdp_index_structure [⟨"1", none, none, none, []⟩,
    ⟨"2", none, none, none, []⟩]).2.1 (0, 1) (by decide)

/-! ### C3 -/

theorem build_series_cache_foldl (P : SeriesObj → Prop) :
    ∀ (series : List SeriesObj) (acc : List (String × SeriesObj)),
      (∀ k v, acc.lookup k = some v → P v) → (∀ s ∈ series, P s) →
      ∀ k v,
        (series.foldl
          (fun idx s =>
            if pyLower (pyStrip (s.title.getD "")) = "" then idx
            else assocSet idx (pyLower (pyStrip (s.title.getD ""))) s)
          acc).lookup k = some v → P v := by
  intro series
  induction series with
  | nil => intro acc hacc _ k v h; exact hacc k v h
  | cons s rest ih =>
    intro acc hacc hall k v h
    rw [List.foldl_cons] at h
    refine ih _ ?_ (fun x hx => hall x (List.mem_cons_of_mem _ hx)) k v h
    intro k' v' h'
    by_cases ht : pyLower (pyStrip (s.title.getD "")) = ""
    · rw [if_pos ht] at h'
      exact hacc k' v' h'
    · rw [if_neg ht, lookup_assocSet] at h'
      by_cases hk : k' = pyLower (pyStrip (s.title.getD ""))
      · rw [if_pos hk] at h'
        injection h' with h''
        rw [← h'']
        exact hall s (List.mem_cons_self _ _)
      · rw [if_neg hk] at h'
        exact hacc k' v' h'

theorem build_series_cache_mem (series : List SeriesObj) (k : String)
    (s : SeriesObj) (h : (build_series_cache series).lookup k = some s) :
    s ∈ series := by
  refine build_series_cache_foldl (· ∈ series) series [] ?_ (fun x hx => hx)
    k s h
  intro k' v h'
  simp at h'

theorem match_episode_mem {eps : List EpisodeObj} {title : String}
    {date : Option String} {e : EpisodeObj}
    (h : match_episode eps title date = some e) : e ∈ eps := by
  unfold match_episode at h
  split at h
  · rename_i e1 h1
    injection h with h2
    subst h2
    split at h1
    · exact List.mem_of_find?_eq_some h1
    · cases h1
  · split at h
    · rename_i e1 h1
      injection h with h2
      subst h2
      exact List.mem_of_find?_eq_some h1
    · split at h
      · exact List.mem_of_find?_eq_some h
      · cases h

theorem processOne_spec (env : Env) (dryRun : Bool) (now : Int) (st : S4State)
    (cache : List (Int × List EpisodeObj)) (r : MissingRecord)
    (hs : ∀ s ∈ env.series, s.id.isSome = true)
    (he : ∀ (i : Int), ∀ e ∈ env.fetchEps i, e.id.isSome = true)
    (hcache : cacheOk env cache) :
    cacheOk env
      (processOne env dryRun now (build_series_cache env.series) st cache
        r).2.2 ∧
    (processOne env dryRun now (build_series_cache env.series) st cache
        r).1.status = statusSpec env dryRun r ∧
    ((processOne env dryRun now (build_series_cache env.series) st cache
        r).1.status = "queued_episode_search" →
      ∃ epId,
        (processOne env dryRun now (build_series_cache env.series) st cache
          r).1.episodeId = some epId ∧
        (processOne env dryRun now (build_series_cache env.series) st cache
          r).1.commandId = env.submit epId) := by
  unfold processOne statusSpec
  dsimp only
  by_cases hstudio : safe_title r.studio = ""
  · rw [if_pos hstudio, if_pos hstudio]
    exact ⟨hcache, rfl, fun hq => absurd
      (show "skipped_no_studio" = "queued_episode_search" from hq)
      (by decide)⟩
  · rw [if_neg hstudio, if_neg hstudio]
    cases hlook : (build_series_cache env.series).lookup
        (pyLower (safe_title r.studio)) with
    | none =>
      dsimp only
      exact ⟨hcache, rfl, fun hq => absurd
        (show "studio_missing_in_whisparr" = "queued_episode_search" from hq)
        (by decide)⟩
    | some sObj =>
      dsimp only
      have hmem : sObj ∈ env.series := build_series_cache_mem _ _ _ hlook
      obtain ⟨sid, hsid⟩ := Option.isSome_iff_exists.mp (hs sObj hmem)
      rw [hsid]
      dsimp only
      simp only [Option.getD_some]
      have hfetched : ∃ cache₂,
          (match cache.lookup sid with
            | some eps => (eps, cache)
            | none =>
              (env.fetchEps sid, assocSet cache sid (env.fetchEps sid)))
            = (env.fetchEps sid, cache₂) ∧ cacheOk env cache₂ := by
        cases hc : cache.lookup sid with
        | some eps =>
          refine ⟨cache, ?_, hcache⟩
          rw [hcache sid eps hc]
        | none =>
          refine ⟨assocSet cache sid (env.fetchEps sid), rfl, ?_⟩
          intro i eps' h'
          rw [lookup_assocSet] at h'
          by_cases hi : i = sid
          · rw [if_pos hi] at h'
            injection h' with h''
            rw [← h'', hi]
          · rw [if_neg hi] at h'
            exact hcache i eps' h'
      obtain ⟨cache₂, heq, hc2⟩ := hfetched
      rw [heq]
      dsimp only
      cases hm : match_episode (env.fetchEps sid) (safe_title r.title)
          r.date with
      | none =>
        dsimp only
        exact ⟨hc2, rfl, fun hq => absurd
          (show "episode_not_found" = "queued_episode_search" from hq)
          (by decide)⟩
      | some ep =>
        dsimp only
        obtain ⟨epId, hepid⟩ := Option.isSome_iff_exists.mp
          (he sid ep (match_episode_mem hm))
        rw [hepid]
        dsimp only
        cases dryRun with
        | true =>
          exact ⟨hc2, rfl, fun hq => absurd
            (show "dry_run_would_queue_search" = "queued_episode_search" from hq)
            (by decide)⟩
        | false =>
          exact ⟨hc2, rfl, fun _ => ⟨epId, rfl, rfl⟩⟩

theorem processAll_spec (env : Env) (dryRun : Bool) (now : Int)
    (hs : ∀ s ∈ env.series, s.id.isSome = true)
    (he : ∀ (i : Int), ∀ e ∈ env.fetchEps i, e.id.isSome = true) :
    ∀ (records : List MissingRecord) (st : S4State)
      (cache : List (Int × List EpisodeObj)), cacheOk env cache →
      ((processAll env dryRun now (build_series_cache env.series) st cache
          records).1.map (·.status)
        = records.map (statusSpec env dryRun)) ∧
      (∀ res ∈ (processAll env dryRun now (build_series_cache env.series) st
          cache records).1,
        res.status = "queued_episode_search" →
        ∃ epId, res.episodeId = some epId ∧ res.commandId = env.submit epId) := by
  intro records
  induction records with
  | nil =>
    intro st cache _
    exact ⟨rfl, by intro res h; cases h⟩
  | cons r rs ih =>
    intro st cache hc
    have hone := processOne_spec env dryRun now st cache r hs he hc
    simp only [processAll]
    obtain ⟨hmap, hall⟩ := ih _ _ hone.1
    constructor
    · rw [List.map_cons, List.map_cons, hone.2.1, hmap]
    · intro res hres hq
      rcases List.mem_cons.mp hres with hres | hres
      · subst hres
        exact hone.2.2 hq
      · exact hall res hres hq

/-! ### C3 -/

/-- C3: the per-record state machine.  Every selected record yields exactly
one result (lengths agree) whose status is `statusSpec`: skipped when the
studio is blank, studio-missing when the lowercased-title index has no
entry, not-found when the three-pass match fails, and the dry-run/queued
pair otherwise; a queued result carries the submitted command id; and
`match_episode` is exactly the pass1-pass2-pass3 fallback chain (passes 1
and 3 run only with a parseable date).  The hypotheses are the §3 data-model
typing of the acquisition system: series and episode ids are integers. -/
theorem acquisitionMatcher_stateMachine (env : Env) (dryRun : Bool)
    (now : Int) (st : S4State) (records : List MissingRecord)
    (hs : ∀ s ∈ env.series, s.id.isSome = true)
    (he : ∀ (i : Int), ∀ e ∈ env.fetchEps i, e.id.isSome = true) :
    ((processAll env dryRun now (build_series_cache env.series) st []
        records).1.length = records.length) ∧
    ((processAll env dryRun now (build_series_cache env.series) st []
        records).1.map (·.status) = records.map (statusSpec env dryRun)) ∧
    (∀ res ∈ (processAll env dryRun now (build_series_cache env.series) st []
        records).1,
      res.status = "queued_episode_search" →
      ∃ epId, res.episodeId = some epId ∧ res.commandId = env.submit epId) ∧
    (∀ (eps : List EpisodeObj) (title : String) (date : Option String),
      match_episode eps title date
        = ((match parseDateArg date with
            | some dd =>
              eps.find? fun (e : EpisodeObj) =>
                (pyLower (pyStrip (e.title.getD ""))
                  == pyLower (pyStrip title)) &&
                (parse_yyyy_mm_dd e.releaseDate == some dd)
            | none => none).orElse fun _ =>
            eps.find? fun (e : EpisodeObj) =>
              pyLower (pyStrip (e.title.getD ""))
                == pyLower (pyStrip title)).orElse fun _ =>
            match parseDateArg date with
            | some dd =>
              eps.find? fun (e : EpisodeObj) =>
                parse_yyyy_mm_dd e.releaseDate == some dd
            | none => none) := by
  have hspec := processAll_spec env dryRun now hs he records st []
    (by intro i eps h; simp at h)
  refine ⟨?_, hspec.1, hspec.2, ?_⟩
  · have := congrArg List.length hspec.1
    simpa using this
  · intro eps title date
    unfold match_episode
    cases hpd : parseDateArg date with
    | none =>
      cases h2 : eps.find? (fun (e : EpisodeObj) =>
          pyLower (pyStrip (e.title.getD "")) == pyLower (pyStrip title)) <;>
        simp [Option.orElse, h2]
    | some dd =>
      cases h1 : eps.find? (fun (e : EpisodeObj) =>
          (pyLower (pyStrip (e.title.getD "")) == pyLower (pyStrip title)) &&
          (parse_yyyy_mm_dd e.releaseDate == some dd)) <;>
      cases h2 : eps.find? (fun (e : EpisodeObj) =>
          pyLower (pyStrip (e.title.getD "")) == pyLower (pyStrip title)) <;>
        simp [Option.orElse, h1, h2]

/-- Witness for C3: one queued record, one studio-less record, one record
whose studio has no series. -/
theorem acquisitionMatcher_stateMachine_witness :
    let env : Env := ⟨[⟨some 5, some "Acme"⟩],
      fun i => if i = 5 then
        [⟨some 77, some "Scene One", some "2024-05-01"⟩] else [],
      fun _ => some 42⟩
    ((processAll env false 9 (build_series_cache env.series) freshState []
        [⟨some "a", some "Scene One", some "2024-05-01", some "ACME "⟩,
         ⟨some "b", some "T", none, none⟩,
         ⟨some "c", some "X", none, some "Ghost"⟩]).1.map (·.status))
      = ["queued_episode_search", "skipped_no_studio",
         "studio_missing_in_whisparr"] := by
  intro env
  have hs : ∀ s ∈ env.series, s.id.isSome = true := by decide
  have he : ∀ (i : Int), ∀ e ∈ env.fetchEps i, e.id.isSome = true := by
    intro i e hmem
    by_cases hi : i = (5 : Int)
    · subst hi
      simp [env] at hmem
      subst hmem
      rfl
    · simp [env, hi] at hmem
  have h := acquisitionMatcher_stateMachine env false 9 freshState
    [⟨some "a", some "Scene One", some "2024-05-01", some "ACME "⟩,
     ⟨some "b", some "T", none, none⟩,
     ⟨some "c", some "X", none, some "Ghost"⟩] hs he
  rw [h.2.1]
  decide

/-! ### C8 -/

/-- C8 counterexample: a MatchState ledger that fails to parse does NOT
abort the run.  With a corrupt state read and one missing record, the run
completes, processes the record, and overwrites the ledger with a fresh
one-entry history — contradicting "the run aborts before processing any
record". -/
theorem malformedState_counterexample :
    load_state (.error "corrupt") = freshState ∧
    runStep4 (.ok [⟨some "q", some "T", none, none⟩]) (.error "corrupt")
        ⟨[], fun _ => [], fun _ => none⟩ false false 30 none 9
      = .ok ([⟨"q", "T", none, "", none, none, "skipped_no_studio", none⟩],
          ⟨some 9, 1, [("q", ⟨9, "skipped_no_studio", 1⟩)]⟩) :=
  ⟨rfl, rfl⟩

/-- C8 amended: a persisted input document that fails to read is fatal —
the run aborts with no results and no state write — but a corrupt
MatchState ledger is deliberately replaced with a fresh state
("start fresh rather than explode") and the run proceeds. -/
theorem malformedArtifacts_amended (e : String)
    (stateRead : Except String S4State) (env : Env) (full dryRun : Bool)
    (lookbackDays : Int) (limit : Option Nat) (now : Int) :
    runStep4 (.error e) stateRead env full dryRun lookbackDays limit now
      = .error e ∧
    load_state (.error e) = freshState :=
  ⟨rfl, rfl⟩
